import Mathlib

/-!
Shallow embedding of the MacroKeyPad firmware (src/MacroKeyPad/MacroKeyPad.ino).

Modelling conventions:
* `char` values are embedded as `Nat` byte codes; C `int` arguments to the
  LED routines are embedded as `Int` so that the sign guards of the source
  are kept verbatim.
* The serial line buffer and tokens are `List Char`; `strtok(buf, " ")`
  is embedded as a structural tokenizer that skips runs of spaces.
* EEPROM is a byte store `Nat → Nat`; on the AVR target `sizeof(int) = 2`,
  so the version tag occupies bytes 0..1 (little endian) and the config
  image starts at byte 2.
* Serial prints are logged as values of the inductive type `Msg`; the
  exact characters of the messages are irrelevant to the claims, only
  which message was emitted and with which arguments.
* avr-libc `atoi` is `(int)strtol(s, NULL, 10)`: the model parses the
  exact decimal value, clamps it to the 32-bit `long` range as `strtol`
  does on overflow, and then wraps it two's-complement to the 16-bit AVR
  `int` (so the token "65537" parses to 1).
* The line buffer models the characters written through `readBufferPtr`;
  `strlen(readBuffer)` is the count of written characters before the
  first NUL byte, which is what the capacity and dispatch tests of the
  source actually read.
-/

/-- A serial token, as produced by `strtok(.., " ")`. -/
abbrev Tok := List Char

/-- `isspace` for the characters relevant to `atoi` (space and 9..13). -/
def isSpaceC (c : Char) : Bool :=
  decide (c.toNat = 32 ∨ (9 ≤ c.toNat ∧ c.toNat ≤ 13))

/-- Digit-accumulating loop of `atoi`. -/
def atoiLoop : List Char → Int → Int
  | [], acc => acc
  | c :: cc, acc =>
    if 48 ≤ c.toNat ∧ c.toNat ≤ 57 then
      atoiLoop cc (acc * 10 + ((c.toNat - 48 : Nat) : Int))
    else acc

/-- The exact decimal value `strtol` reads: skip whitespace, optional
sign, leading digits. -/
def atoiRaw (s : List Char) : Int :=
  match s.dropWhile isSpaceC with
  | [] => 0
  | c :: cc =>
    if c.toNat = 45 then - atoiLoop cc 0
    else if c.toNat = 43 then atoiLoop cc 0
    else atoiLoop (c :: cc) 0

/-- `strtol` clamps an overflowing value to the 32-bit `long` range. -/
def clampLong (n : Int) : Int := max (-2147483648) (min 2147483647 n)

/-- Two's-complement wrap of the `(int)` cast to the 16-bit AVR `int`. -/
def wrap16 (n : Int) : Int := (n + 32768) % 65536 - 32768

/-- avr-libc `atoi`, i.e. `(int)strtol(s, NULL, 10)`: exact decimal
parse, clamp to `long`, then wrap to the signed 16-bit `int` — the value
`int nr = atoi(nextword)` holds at source line 210 ("65537" gives 1,
"65536" gives 0). -/
def atoi (s : List Char) : Int := wrap16 (clampLong (atoiRaw s))

/-- Accumulator version of the `strtok` split on spaces (the accumulator
holds the current word reversed). -/
def tokenizeAux : List Char → List Char → List Tok
  | [], acc => if acc = [] then [] else [acc.reverse]
  | c :: cc, acc =>
    if c.toNat = 32 then
      if acc = [] then tokenizeAux cc [] else acc.reverse :: tokenizeAux cc []
    else tokenizeAux cc (c :: acc)

/-- The sequence of words `strtok(buf, " ")` yields on a buffer (runs of
spaces collapse, no empty words). -/
def tokenize (s : List Char) : List Tok := tokenizeAux s []

/-- Serial output messages, one constructor per distinct `Serial.print`
site of the source (help text condensed to one message). -/
inductive Msg where
  | unknownCommandError
  | missingNumber
  | rangeError (lo hi : Int)
  | settingFlagError
  | singleCharError
  | configPersisted
  | configLoaded
  | helpText
  | versionText
  | ledStateVal (v : Nat)
  | mapActive (alt : Bool)
  | settingsLine (key led cfgChar code : Nat)
deriving DecidableEq

/-- The `ConfigData` struct: two keymaps and two led-behaviour maps of 8
byte-valued entries each. -/
structure ConfigData where
  keyMap1 : List Nat
  keyMap2 : List Nat
  ledConfig1 : List Nat
  ledConfig2 : List Nat
deriving DecidableEq

/-- Compiled-in defaults of `config` (F13..F18, F21, F22 are key codes
240..245, 248, 249; digits are 49..56; behaviour char is 't' = 116). -/
def defaultConfig : ConfigData :=
  ⟨[240, 241, 242, 243, 244, 245, 248, 249],
   [49, 50, 51, 52, 53, 54, 55, 56],
   List.replicate 8 116,
   List.replicate 8 116⟩

/-- The firmware state touched by the command protocol: led states,
config, active-map flag, EEPROM bytes and the log of serial prints. -/
structure SysState where
  leds : List Nat
  cfg : ConfigData
  useAlt : Bool
  rom : Nat → Nat
  out : List Msg

/-- `setLed` (source lines 159-163): silently rejects an index outside
[0,7] and an on/off value outside [0,1]. -/
def setLed (s : List Nat) (nr onOff : Int) : List Nat :=
  if nr < 0 ∨ 8 ≤ nr ∨ onOff < 0 ∨ 1 < onOff then s
  else s.set nr.toNat onOff.toNat

/-- `toggleLed` (source lines 166-173). -/
def toggleLed (s : List Nat) (nr : Int) : List Nat :=
  if nr < 0 ∨ 8 ≤ nr then s
  else if s.getD nr.toNat 0 = 0 then setLed s nr 1 else setLed s nr 0

/-- The `ledAnimation` frame table (source lines 64-74), 1-based led pairs. -/
def ledAnimation : List (Int × Int) :=
  [(1, 8), (2, 7), (3, 6), (4, 5), (8, 1), (7, 2), (6, 3), (5, 4), (1, 8)]

/-- The `(index, value)` arguments of the `setLed` calls made by the frame
loop of `startupLedAnimation` (source lines 137-147): each frame turns its
pair on, then (except for the first frame) turns the previous pair off. -/
def frameEventsAux : Option (Int × Int) → List (Int × Int) → List (Int × Int)
  | _, [] => []
  | prev, f :: rest =>
    ((f.1 - 1, (1 : Int)) :: (f.2 - 1, (1 : Int)) ::
      (match prev with
       | none => ([] : List (Int × Int))
       | some p => [(p.1 - 1, (0 : Int)), (p.2 - 1, (0 : Int))])) ++
      frameEventsAux (some f) rest

/-- All `setLed` arguments of `startupLedAnimation` before the restore
loop: the frame loop followed by the explicit turn-off of the last frame's
pair (source lines 148-150). -/
def frameEvents : List (Int × Int) :=
  frameEventsAux none ledAnimation ++
    (match ledAnimation.getLast? with
     | some p => [(p.1 - 1, 0), (p.2 - 1, 0)]
     | none => [])

/-- `startupLedAnimation` (source lines 129-156), as a state transformer on
the led array: snapshot, run the frame events, then restore each of the 8
leds from the snapshot.  The 250 ms delays have no state effect. -/
def startupLedAnimation (s : List Nat) : List Nat :=
  let afterFrames := frameEvents.foldl (fun acc e => setLed acc e.1 e.2) s
  (List.range 8).foldl
    (fun acc i => setLed acc (Int.ofNat i) (Int.ofNat (s.getD i 0))) afterFrames

/-- `executeLedConfig` (source lines 176-200): apply the configured led
behaviour of the active map for a pressed key.  The four `if`s of the
source are sequential, which the four `let`s reproduce. -/
def executeLedConfig (nr : Int) (st : SysState) : SysState :=
  if nr < 0 ∨ 8 ≤ nr then st
  else
    let setting :=
      if st.useAlt then st.cfg.ledConfig2.getD nr.toNat 0
      else st.cfg.ledConfig1.getD nr.toNat 0
    let s1 := if setting = 116 then toggleLed st.leds nr else st.leds
    let s2 := if setting = 101 then setLed s1 nr 1 else s1
    let s3 := if setting = 100 then setLed s2 nr 0 else s2
    let s4 := if setting = 102 then setLed (setLed s3 nr 1) nr 0 else s3
    { st with leds := s4 }

/-- `parseNumber` (source lines 203-219): take the next word, `atoi` it,
check the inclusive range; on failure print an error and yield -1.
Returns (value, remaining words, printed messages). -/
def parseNumber (lo hi : Int) (toks : List Tok) : Int × List Tok × List Msg :=
  match toks with
  | [] => (-1, [], [Msg.missingNumber])
  | t :: rest =>
    let nr := atoi t
    if nr < lo ∨ hi < nr then (-1, rest, [Msg.rangeError lo hi])
    else (nr, rest, [])

/-- EEPROM write of a byte list at a base address. -/
def putBytes (a : Nat) (bs : List Nat) (rom : Nat → Nat) : Nat → Nat :=
  fun addr => if a ≤ addr ∧ addr < a + bs.length then bs.getD (addr - a) 0 else rom addr

/-- EEPROM read of `n` bytes at a base address. -/
def readBytes (a n : Nat) (rom : Nat → Nat) : List Nat :=
  (List.range n).map fun i => rom (a + i) % 256

/-- The two bytes `EEPROM.put(0, version)` writes for `int version = 2306`
(AVR little endian, 2306 = 9 * 256 + 2). -/
def versionBytes : List Nat := [2306 % 256, 2306 / 256]

/-- The byte image `EEPROM.put(2, config)` writes: the four 8-byte arrays
in declaration order. -/
def serializeConfig (c : ConfigData) : List Nat :=
  (c.keyMap1 ++ c.keyMap2 ++ c.ledConfig1 ++ c.ledConfig2).map (· % 256)

/-- Rebuild a `ConfigData` from its 32-byte EEPROM image. -/
def deserializeConfig (bs : List Nat) : ConfigData :=
  ⟨bs.take 8, (bs.drop 8).take 8, (bs.drop 16).take 8, (bs.drop 24).take 8⟩

/-- The `int` value `EEPROM.get(0, version)` reads: two little-endian bytes
interpreted as a signed 16-bit integer. -/
def readVersion (rom : Nat → Nat) : Int :=
  let raw := rom 0 % 256 + 256 * (rom 1 % 256)
  if raw < 32768 then (raw : Int) else (raw : Int) - 65536

/-- Type of a command handler: state and remaining words in, exit code
(nonzero aborts the line), new state and remaining words out. -/
abbrev Handler := SysState → List Tok → Int × SysState × List Tok

/-- `handleHelp` (source lines 280-287); the printed help lines are
condensed to a single `helpText` message. -/
def handleHelp : Handler := fun st toks =>
  (0, { st with out := st.out ++ [Msg.helpText] }, toks)

/-- `handleVersion` (source lines 290-293). -/
def handleVersion : Handler := fun st toks =>
  (0, { st with out := st.out ++ [Msg.versionText] }, toks)

/-- `handleGetLed` (source lines 296-301). -/
def handleGetLed : Handler := fun st toks =>
  let r := parseNumber 1 8 toks
  let st1 := { st with out := st.out ++ r.2.2 }
  if r.1 = -1 then (1, st1, r.2.1)
  else (0, { st1 with out := st1.out ++ [Msg.ledStateVal (st1.leds.getD (r.1 - 1).toNat 0)] }, r.2.1)

/-- `handleToggle` (source lines 304-309). -/
def handleToggle : Handler := fun st toks =>
  let r := parseNumber 1 8 toks
  let st1 := { st with out := st.out ++ r.2.2 }
  if r.1 = -1 then (1, st1, r.2.1)
  else (0, { st1 with leds := toggleLed st1.leds (r.1 - 1) }, r.2.1)

/-- `handleOn` (source lines 312-317). -/
def handleOn : Handler := fun st toks =>
  let r := parseNumber 1 8 toks
  let st1 := { st with out := st.out ++ r.2.2 }
  if r.1 = -1 then (1, st1, r.2.1)
  else (0, { st1 with leds := setLed st1.leds (r.1 - 1) 1 }, r.2.1)

/-- `handleOff` (source lines 320-325). -/
def handleOff : Handler := fun st toks =>
  let r := parseNumber 1 8 toks
  let st1 := { st with out := st.out ++ r.2.2 }
  if r.1 = -1 then (1, st1, r.2.1)
  else (0, { st1 with leds := setLed st1.leds (r.1 - 1) 0 }, r.2.1)

/-- `handleFlash` (source lines 328-338); the delays have no state effect,
so the net led effect is on followed by off. -/
def handleFlash : Handler := fun st toks =>
  let r1 := parseNumber 1 8 toks
  let st1 := { st with out := st.out ++ r1.2.2 }
  if r1.1 = -1 then (1, st1, r1.2.1)
  else
    let r2 := parseNumber 10 500 r1.2.1
    let st2 := { st1 with out := st1.out ++ r2.2.2 }
    if r2.1 = -1 then (1, st2, r2.2.1)
    else (0, { st2 with leds := setLed (setLed st2.leds (r1.1 - 1) 1) (r1.1 - 1) 0 }, r2.2.1)

/-- `handleAnimation` (source lines 341-344). -/
def handleAnimation : Handler := fun st toks =>
  (0, { st with leds := startupLedAnimation st.leds }, toks)

/-- `handleActivateKeyMap` (source lines 347-352). -/
def handleActivateKeyMap : Handler := fun st toks =>
  let r := parseNumber 1 2 toks
  let st1 := { st with out := st.out ++ r.2.2 }
  if r.1 = -1 then (1, st1, r.2.1)
  else (0, { st1 with useAlt := r.1 == 2 }, r.2.1)

/-- List-of-chars version of `startsWith`, for the `strstr` model. -/
def startsWithL : List Char → List Char → Bool
  | [], _ => true
  | _ :: _, [] => false
  | a :: as, b :: bs => a == b && startsWithL as bs

/-- `strstr(hay, needle) != NULL`: the needle occurs contiguously in the
hay (with arguments in the order (needle, hay)). -/
def occursIn : List Char → List Char → Bool
  | needle, [] => needle.isEmpty
  | needle, c :: t => startsWithL needle (c :: t) || occursIn needle t

/-- `handleConfigToggle` (source lines 355-369): the setting word must be
a single character occurring in "tedf" ('t' 116, 'e' 101, 'd' 100,
'f' 102). -/
def handleConfigToggle : Handler := fun st toks =>
  let r := parseNumber 1 8 toks
  let st1 := { st with out := st.out ++ r.2.2 }
  if r.1 = -1 then (1, st1, r.2.1)
  else
    match r.2.1 with
    | [] => (1, { st1 with out := st1.out ++ [Msg.settingFlagError] }, [])
    | tok :: rest2 =>
      if occursIn tok "tedf".data ∧ tok.length = 1 then
        let v := (tok.getD 0 (Char.ofNat 0)).toNat
        if st1.useAlt then
          (0, { st1 with cfg := { st1.cfg with ledConfig2 := st1.cfg.ledConfig2.set (r.1 - 1).toNat v } }, rest2)
        else
          (0, { st1 with cfg := { st1.cfg with ledConfig1 := st1.cfg.ledConfig1.set (r.1 - 1).toNat v } }, rest2)
      else (1, { st1 with out := st1.out ++ [Msg.settingFlagError] }, rest2)

/-- `handleShowSettings` (source lines 372-384); each printed line is
logged with the key number, led on/off, behaviour char and key code
(printed through a `uint8_t` cast, hence the mod 256). -/
def handleShowSettings : Handler := fun st toks =>
  let lines := (List.range 8).map fun i =>
    if st.useAlt then
      Msg.settingsLine (i + 1) (if st.leds.getD i 0 = 0 then 0 else 1)
        (st.cfg.ledConfig2.getD i 0) (st.cfg.keyMap2.getD i 0 % 256)
    else
      Msg.settingsLine (i + 1) (if st.leds.getD i 0 = 0 then 0 else 1)
        (st.cfg.ledConfig1.getD i 0) (st.cfg.keyMap1.getD i 0 % 256)
  (0, { st with out := st.out ++ [Msg.mapActive st.useAlt] ++ lines }, toks)

/-- `handleSetKeyCode` (source lines 387-398); `(char)(code & 255)` is
embedded as `code.toNat % 256`. -/
def handleSetKeyCode : Handler := fun st toks =>
  let r1 := parseNumber 1 8 toks
  let st1 := { st with out := st.out ++ r1.2.2 }
  if r1.1 = -1 then (1, st1, r1.2.1)
  else
    let r2 := parseNumber 0 255 r1.2.1
    let st2 := { st1 with out := st1.out ++ r2.2.2 }
    if r2.1 = -1 then (1, st2, r2.2.1)
    else
      let v := r2.1.toNat % 256
      if st2.useAlt then
        (0, { st2 with cfg := { st2.cfg with keyMap2 := st2.cfg.keyMap2.set (r1.1 - 1).toNat v } }, r2.2.1)
      else
        (0, { st2 with cfg := { st2.cfg with keyMap1 := st2.cfg.keyMap1.set (r1.1 - 1).toNat v } }, r2.2.1)

/-- `handleSetKeyChar` (source lines 401-415). -/
def handleSetKeyChar : Handler := fun st toks =>
  let r := parseNumber 1 8 toks
  let st1 := { st with out := st.out ++ r.2.2 }
  if r.1 = -1 then (1, st1, r.2.1)
  else
    match r.2.1 with
    | [] => (1, { st1 with out := st1.out ++ [Msg.singleCharError] }, [])
    | tok :: rest2 =>
      if tok.length = 1 then
        let v := (tok.getD 0 (Char.ofNat 0)).toNat
        if st1.useAlt then
          (0, { st1 with cfg := { st1.cfg with keyMap2 := st1.cfg.keyMap2.set (r.1 - 1).toNat v } }, rest2)
        else
          (0, { st1 with cfg := { st1.cfg with keyMap1 := st1.cfg.keyMap1.set (r.1 - 1).toNat v } }, rest2)
      else (1, { st1 with out := st1.out ++ [Msg.singleCharError] }, rest2)

/-- `handlePersist` (source lines 418-426): write the version tag at
offset 0, the config image at offset 2 (= sizeof(int) on AVR). -/
def handlePersist : Handler := fun st toks =>
  let rom1 := putBytes 0 versionBytes st.rom
  let rom2 := putBytes 2 (serializeConfig st.cfg) rom1
  (0, { st with rom := rom2, out := st.out ++ [Msg.configPersisted] }, toks)

/-- `handleLoad` (source lines 429-440): overwrite the config from EEPROM
only when the stored version tag equals 2306; silent otherwise. -/
def handleLoad : Handler := fun st toks =>
  if readVersion st.rom = 2306 then
    (0, { st with cfg := deserializeConfig (readBytes 2 32 st.rom),
                  out := st.out ++ [Msg.configLoaded] }, toks)
  else (0, st, toks)

/-- The `handlers` dispatch table (source lines 252-268): shortcode, full
command, handler. -/
def handlersList : List (Tok × Tok × Handler) :=
  [("?".data, "help".data, handleHelp),
   ("v".data, "version".data, handleVersion),
   ("g".data, "getled".data, handleGetLed),
   ("t".data, "toggle".data, handleToggle),
   ("e".data, "on".data, handleOn),
   ("d".data, "off".data, handleOff),
   ("f".data, "flash".data, handleFlash),
   ("a".data, "animation".data, handleAnimation),
   ("u".data, "usemap".data, handleActivateKeyMap),
   ("c".data, "configtoggle".data, handleConfigToggle),
   ("s".data, "showsettings".data, handleShowSettings),
   ("k".data, "setkeycode".data, handleSetKeyCode),
   ("h".data, "setkeychar".data, handleSetKeyChar),
   ("p".data, "persist".data, handlePersist),
   ("l".data, "load".data, handleLoad)]

/-- The table scan of `executeSerialCommands` (source lines 449-455): a
word matches an entry when it equals the full command or the shortcode. -/
def findHandler (w : Tok) : Option Handler :=
  (handlersList.find? fun e => e.2.1 == w || e.1 == w).map fun e => e.2.2

/-- The word loop of `executeSerialCommands` (source lines 443-466).  The
fuel argument only bounds the recursion; each iteration consumes at least
the verb word, so fuel equal to the word count is enough. -/
def execTokens : Nat → List Tok → SysState → SysState
  | 0, _, st => st
  | _ + 1, [], st => st
  | fuel + 1, w :: rest, st =>
    match findHandler w with
    | none => { st with out := st.out ++ [Msg.unknownCommandError] }
    | some h =>
      let r := h st rest
      if r.1 ≠ 0 then r.2.1 else execTokens fuel r.2.2 r.2.1

/-- `executeSerialCommands` (source lines 443-466) on a full line buffer. -/
def executeSerialCommands (buf : List Char) (st : SysState) : SysState :=
  let toks := tokenize buf
  execTokens toks.length toks st

/-- `strlen(readBuffer)`: the number of written characters before the
first NUL byte (the source keeps a terminating NUL one past the written
characters, so a buffer without received NUL bytes has its full length). -/
def cstrlen (buf : List Char) : Nat := (buf.takeWhile fun c => c.toNat ≠ 0).length

/-- `handleSerialReceive` (source lines 469-484).  The buffer argument is
the list of characters written through `readBufferPtr` (the pointer
stands at index `buf.length` of the 80-byte array).  The capacity test of
line 473 is `strlen(readBuffer) < 79`: it freezes once a NUL byte has
been received while the write pointer keeps advancing, so the written
characters are NOT bounded by 79.  The dispatch of line 479 is gated by
`strlen(readBuffer) > 0` and hands `strtok` the C string, i.e. the
prefix of the buffer before its first NUL byte. -/
def handleSerialReceive : List Char → List Char → SysState → List Char × SysState
  | [], buf, st => (buf, st)
  | c :: rest, buf, st =>
    let buf1 := if cstrlen buf < 79 ∧ c.toNat ≠ 13 ∧ c.toNat ≠ 10 then buf ++ [c] else buf
    if (c.toNat = 13 ∨ c.toNat = 10) ∧ 0 < cstrlen buf1 then
      handleSerialReceive rest []
        (executeSerialCommands (buf1.takeWhile fun d => d.toNat ≠ 0) st)
    else
      handleSerialReceive rest buf1 st

/-- A convenient all-off, defaults, empty-EEPROM boot state. -/
def bootState : SysState :=
  ⟨List.replicate 8 0, defaultConfig, false, fun _ => 0, []⟩

/-- The led-state invariant: every entry of the 8-byte `ledState` array is
0 or 1. -/
def ledInv (s : List Nat) : Prop := ∀ x ∈ s, x ≤ 1

instance : DecidablePred ledInv := fun s => List.decidableBAll _ s

/-- Well-formedness of an in-memory `ConfigData`: each of the four arrays
has 8 entries and every entry is a byte (automatic for C `char` fields). -/
def cfgWF (c : ConfigData) : Prop :=
  c.keyMap1.length = 8 ∧ c.keyMap2.length = 8 ∧
  c.ledConfig1.length = 8 ∧ c.ledConfig2.length = 8 ∧
  (∀ x ∈ c.keyMap1, x < 256) ∧ (∀ x ∈ c.keyMap2, x < 256) ∧
  (∀ x ∈ c.ledConfig1, x < 256) ∧ (∀ x ∈ c.ledConfig2, x < 256)

instance : DecidablePred cfgWF := fun _ => by unfold cfgWF; infer_instance

/-- The key code a key press emits (`loop`, source line 519): the entry of
whichever key map `useAlternateKeyMap` designates. -/
def activeKeyCode (st : SysState) (i : Nat) : Nat :=
  if st.useAlt then st.cfg.keyMap2.getD i 0 else st.cfg.keyMap1.getD i 0

/-- A byte sequence containing no CR and no LF. -/
def noTerm (cc : List Char) : Prop := ∀ c ∈ cc, c.toNat ≠ 13 ∧ c.toNat ≠ 10

instance : DecidablePred noTerm := fun cc => List.decidableBAll _ cc

/-! ### Helper lemmas about the led primitives -/

theorem setLed_length (s : List Nat) (nr v : Int) :
    (setLed s nr v).length = s.length := by
  unfold setLed; split
  · rfl
  · exact List.length_set ..

theorem setLed_valid (s : List Nat) (nr v : Int) (hn0 : 0 ≤ nr) (hn : nr < 8)
    (hv0 : 0 ≤ v) (hv : v ≤ 1) : setLed s nr v = s.set nr.toNat v.toNat := by
  unfold setLed
  rw [if_neg]
  omega

theorem ledInv_setLed (s : List Nat) (nr v : Int) (h : ledInv s) :
    ledInv (setLed s nr v) := by
  unfold setLed
  split
  · exact h
  next hc =>
    intro x hx
    rcases List.mem_or_eq_of_mem_set hx with hx' | rfl
    · exact h x hx'
    · omega

theorem ledInv_toggleLed (s : List Nat) (nr : Int) (h : ledInv s) :
    ledInv (toggleLed s nr) := by
  unfold toggleLed
  split
  · exact h
  · split
    · exact ledInv_setLed s nr 1 h
    · exact ledInv_setLed s nr 0 h

theorem ledInv_foldl_setLed {α : Type} (g1 g2 : α → Int) :
    ∀ (l : List α) (s : List Nat), ledInv s →
      ledInv (l.foldl (fun acc e => setLed acc (g1 e) (g2 e)) s)
  | [], s, h => h
  | e :: l, s, h =>
    ledInv_foldl_setLed g1 g2 l (setLed s (g1 e) (g2 e)) (ledInv_setLed _ _ _ h)

theorem length_foldl_setLed {α : Type} (g1 g2 : α → Int) :
    ∀ (l : List α) (s : List Nat),
      (l.foldl (fun acc e => setLed acc (g1 e) (g2 e)) s).length = s.length
  | [], _ => rfl
  | e :: l, s => by
    rw [List.foldl_cons, length_foldl_setLed g1 g2 l, setLed_length]

theorem list_eight (s : List Nat) (hl : s.length = 8) :
    ∃ a b c d e f g h, s = [a, b, c, d, e, f, g, h] := by
  cases s with
  | nil => simp at hl
  | cons a s =>
  cases s with
  | nil => simp at hl
  | cons b s =>
  cases s with
  | nil => simp at hl
  | cons c s =>
  cases s with
  | nil => simp at hl
  | cons d s =>
  cases s with
  | nil => simp at hl
  | cons e s =>
  cases s with
  | nil => simp at hl
  | cons f s =>
  cases s with
  | nil => simp at hl
  | cons g s =>
  cases s with
  | nil => simp at hl
  | cons h s =>
  cases s with
  | nil => exact ⟨a, b, c, d, e, f, g, h, rfl⟩
  | cons i s => simp at hl

theorem restore_foldl_eq (t s : List Nat) (ht : t.length = 8) (hs : s.length = 8)
    (hinv : ledInv s) :
    (List.range 8).foldl
      (fun acc i => setLed acc (Int.ofNat i) (Int.ofNat (s.getD i 0))) t = s := by
  obtain ⟨a, b, c, d, e, f, g, h, rfl⟩ := list_eight t ht
  obtain ⟨a', b', c', d', e', f', g', h', rfl⟩ := list_eight s hs
  simp only [ledInv, List.mem_cons, List.not_mem_nil, or_false, forall_eq_or_imp,
    forall_eq] at hinv
  obtain ⟨h0, h1, h2, h3, h4, h5, h6, h7⟩ := hinv
  interval_cases a' <;> interval_cases b' <;> interval_cases c' <;>
    interval_cases d' <;> interval_cases e' <;> interval_cases f' <;>
    interval_cases g' <;> interval_cases h' <;> rfl

theorem set_getD_self (l : List Nat) (n : Nat) (h : n < l.length) :
    l.set n (l.getD n 0) = l := by
  apply List.ext_getElem (by simp)
  intro i hi1 hi2
  by_cases hin : n = i
  · subst hin
    rw [List.getElem_set_self, List.getD_eq_getElem _ _ h]
  · rw [List.getElem_set_of_ne hin]

theorem toggleLed_valid (s : List Nat) (nr : Int) (h0 : 0 ≤ nr) (h8 : nr < 8) :
    toggleLed s nr =
      if s.getD nr.toNat 0 = 0 then s.set nr.toNat 1 else s.set nr.toNat 0 := by
  unfold toggleLed
  rw [if_neg (by omega)]
  split
  · rw [setLed_valid s nr 1 h0 h8 (by omega) (by omega)]; rfl
  · rw [setLed_valid s nr 0 h0 h8 (by omega) (by omega)]; rfl

theorem startupLedAnimation_id (s : List Nat) (hs : s.length = 8)
    (hinv : ledInv s) : startupLedAnimation s = s := by
  unfold startupLedAnimation
  apply restore_foldl_eq _ s _ hs hinv
  rw [length_foldl_setLed Prod.fst Prod.snd]
  exact hs

theorem ledInv_startupLedAnimation (s : List Nat) (h : ledInv s) :
    ledInv (startupLedAnimation s) := by
  unfold startupLedAnimation
  exact ledInv_foldl_setLed _ _ _ _ (ledInv_foldl_setLed Prod.fst Prod.snd _ _ h)

theorem ledInv_executeLedConfig (nr : Int) (st : SysState)
    (h : ledInv st.leds) : ledInv (executeLedConfig nr st).leds := by
  unfold executeLedConfig
  split
  · exact h
  · dsimp only
    repeat' split
    all_goals
      repeat
        first
        | exact h
        | apply ledInv_setLed
        | apply ledInv_toggleLed

theorem ledInv_handleGetLed (st : SysState) (toks : List Tok)
    (h : ledInv st.leds) : ledInv ((handleGetLed st toks).2.1).leds := by
  dsimp only [handleGetLed]
  split <;> exact h

theorem ledInv_handleToggle (st : SysState) (toks : List Tok)
    (h : ledInv st.leds) : ledInv ((handleToggle st toks).2.1).leds := by
  dsimp only [handleToggle]
  split
  · exact h
  · exact ledInv_toggleLed _ _ h

theorem ledInv_handleOn (st : SysState) (toks : List Tok)
    (h : ledInv st.leds) : ledInv ((handleOn st toks).2.1).leds := by
  dsimp only [handleOn]
  split
  · exact h
  · exact ledInv_setLed _ _ _ h

theorem ledInv_handleOff (st : SysState) (toks : List Tok)
    (h : ledInv st.leds) : ledInv ((handleOff st toks).2.1).leds := by
  dsimp only [handleOff]
  split
  · exact h
  · exact ledInv_setLed _ _ _ h

theorem ledInv_handleFlash (st : SysState) (toks : List Tok)
    (h : ledInv st.leds) : ledInv ((handleFlash st toks).2.1).leds := by
  dsimp only [handleFlash]
  split
  · exact h
  · split
    · exact h
    · exact ledInv_setLed _ _ _ (ledInv_setLed _ _ _ h)

theorem ledInv_handleConfigToggle (st : SysState) (toks : List Tok)
    (h : ledInv st.leds) : ledInv ((handleConfigToggle st toks).2.1).leds := by
  dsimp only [handleConfigToggle]
  split
  · exact h
  · split
    · exact h
    · split <;> [skip; exact h] <;> split <;> exact h

theorem ledInv_handleSetKeyCode (st : SysState) (toks : List Tok)
    (h : ledInv st.leds) : ledInv ((handleSetKeyCode st toks).2.1).leds := by
  dsimp only [handleSetKeyCode]
  split
  · exact h
  · split
    · exact h
    · split <;> exact h

theorem ledInv_handleSetKeyChar (st : SysState) (toks : List Tok)
    (h : ledInv st.leds) : ledInv ((handleSetKeyChar st toks).2.1).leds := by
  dsimp only [handleSetKeyChar]
  split
  · exact h
  · split
    · exact h
    · split <;> [skip; exact h] <;> split <;> exact h

theorem ledInv_handleActivateKeyMap (st : SysState) (toks : List Tok)
    (h : ledInv st.leds) : ledInv ((handleActivateKeyMap st toks).2.1).leds := by
  dsimp only [handleActivateKeyMap]
  split <;> exact h

theorem handlersList_ledInv :
    ∀ e ∈ handlersList, ∀ (st : SysState) (toks : List Tok),
      ledInv st.leds → ledInv ((e.2.2 st toks).2.1).leds := by
  intro e he st toks h
  fin_cases he
  · exact h
  · exact h
  · exact ledInv_handleGetLed st toks h
  · exact ledInv_handleToggle st toks h
  · exact ledInv_handleOn st toks h
  · exact ledInv_handleOff st toks h
  · exact ledInv_handleFlash st toks h
  · exact ledInv_startupLedAnimation _ h
  · exact ledInv_handleActivateKeyMap st toks h
  · exact ledInv_handleConfigToggle st toks h
  · exact h
  · exact ledInv_handleSetKeyCode st toks h
  · exact ledInv_handleSetKeyChar st toks h
  · exact h
  · dsimp only [handleLoad]
    split <;> exact h

theorem ledInv_execTokens :
    ∀ (fuel : Nat) (toks : List Tok) (st : SysState),
      ledInv st.leds → ledInv (execTokens fuel toks st).leds
  | 0, _, _, h => h
  | _ + 1, [], _, h => h
  | fuel + 1, w :: rest, st, h => by
    simp only [execTokens]
    cases hf : findHandler w with
    | none => simp only [hf]; exact h
    | some hd =>
      simp only [hf]
      have hmem : ∃ e ∈ handlersList, e.2.2 = hd := by
        unfold findHandler at hf
        cases hfind : handlersList.find? fun e => e.2.1 == w || e.1 == w with
        | none => rw [hfind] at hf; simp at hf
        | some e =>
          rw [hfind] at hf
          simp only [Option.map_some'] at hf
          exact ⟨e, List.mem_of_find?_eq_some hfind, Option.some.inj hf⟩
      obtain ⟨e, he, rfl⟩ := hmem
      have hstep := handlersList_ledInv e he st rest h
      split
      · exact hstep
      · exact ledInv_execTokens fuel _ _ hstep

theorem ledInv_executeSerialCommands (buf : List Char) (st : SysState)
    (h : ledInv st.leds) : ledInv (executeSerialCommands buf st).leds :=
  ledInv_execTokens _ _ _ h

/-! ### Helper lemmas about the serial input assembler -/

theorem hsr_append :
    ∀ (xs ys buf : List Char) (st : SysState),
      handleSerialReceive (xs ++ ys) buf st =
        handleSerialReceive ys (handleSerialReceive xs buf st).1
          (handleSerialReceive xs buf st).2
  | [], _, _, _ => rfl
  | c :: xs, ys, buf, st => by
    simp only [List.cons_append, handleSerialReceive]
    split <;> split <;>
      first
        | exact hsr_append xs ys [] _
        | exact hsr_append xs ys _ st

/-- The buffer contents after feeding terminator-free bytes: the fold of
the guarded append of line 473-477. -/
def feedBuf (cs buf : List Char) : List Char :=
  cs.foldl
    (fun b c => if cstrlen b < 79 ∧ c.toNat ≠ 13 ∧ c.toNat ≠ 10 then b ++ [c] else b) buf

theorem hsr_noTerm_fold :
    ∀ (cs buf : List Char) (st : SysState), noTerm cs →
      handleSerialReceive cs buf st = (feedBuf cs buf, st)
  | [], _, _, _ => rfl
  | c :: cs, buf, st, hnt => by
    have hc := hnt c (List.mem_cons_self ..)
    have hcc : noTerm cs := fun d hd => hnt d (List.mem_cons_of_mem _ hd)
    simp only [handleSerialReceive, feedBuf, List.foldl_cons]
    rw [if_neg (fun hx => hx.1.elim (fun h13 => hc.1 h13) fun h10 => hc.2 h10)]
    exact hsr_noTerm_fold cs _ st hcc

theorem hsr_term_step (c : Char) (buf : List Char) (st : SysState)
    (hc : c.toNat = 13 ∨ c.toNat = 10) :
    handleSerialReceive [c] buf st =
      if 0 < cstrlen buf then
        ([], executeSerialCommands (buf.takeWhile fun d => d.toNat ≠ 0) st)
      else (buf, st) := by
  simp only [handleSerialReceive]
  have hbuf1 :
      (if cstrlen buf < 79 ∧ c.toNat ≠ 13 ∧ c.toNat ≠ 10 then buf ++ [c] else buf) = buf := by
    rw [if_neg]
    intro hx
    rcases hc with h | h
    exacts [hx.2.1 h, hx.2.2 h]
  rw [hbuf1]
  by_cases hlen : 0 < cstrlen buf
  · rw [if_pos ⟨hc, hlen⟩, if_pos hlen]
  · rw [if_neg (fun hx => hlen hx.2), if_neg hlen]

/-! ### Helper lemmas about the EEPROM model -/

theorem range_map_getD (bs : List Nat) (f : Nat → Nat) :
    (List.range bs.length).map (fun i => f (bs.getD i 0)) = bs.map f := by
  apply List.ext_getElem (by simp)
  intro n h1 h2
  have hn : n < bs.length := by simpa using h2
  rw [List.getElem_map, List.getElem_map, List.getElem_range,
    List.getD_eq_getElem _ _ hn]

theorem readBytes_putBytes (a : Nat) (bs : List Nat) (rom : Nat → Nat) :
    readBytes a bs.length (putBytes a bs rom) = bs.map (· % 256) := by
  unfold readBytes putBytes
  have hcong : ∀ i ∈ List.range bs.length,
      (if a ≤ a + i ∧ a + i < a + bs.length then bs.getD (a + i - a) 0
       else rom (a + i)) % 256 = bs.getD i 0 % 256 := by
    intro i hi
    have : i < bs.length := List.mem_range.mp hi
    rw [if_pos ⟨Nat.le_add_right a i, by omega⟩]
    congr 2
    omega
  rw [List.map_congr_left hcong]
  exact range_map_getD bs (· % 256)

theorem putBytes_before (a addr : Nat) (bs : List Nat) (rom : Nat → Nat)
    (h : addr < a) : putBytes a bs rom addr = rom addr := by
  unfold putBytes
  rw [if_neg]
  omega

theorem serializeConfig_map_eq (c : ConfigData) (h : cfgWF c) :
    serializeConfig c = c.keyMap1 ++ c.keyMap2 ++ c.ledConfig1 ++ c.ledConfig2 := by
  obtain ⟨-, -, -, -, hb1, hb2, hb3, hb4⟩ := h
  unfold serializeConfig
  have hmem : ∀ x ∈ c.keyMap1 ++ c.keyMap2 ++ c.ledConfig1 ++ c.ledConfig2,
      x % 256 = x := by
    intro x hx
    simp only [List.mem_append] at hx
    rcases hx with ((h1 | h2) | h3) | h4
    · exact Nat.mod_eq_of_lt (hb1 x h1)
    · exact Nat.mod_eq_of_lt (hb2 x h2)
    · exact Nat.mod_eq_of_lt (hb3 x h3)
    · exact Nat.mod_eq_of_lt (hb4 x h4)
  rw [List.map_congr_left hmem, List.map_id']

theorem serializeConfig_length (c : ConfigData) (h : cfgWF c) :
    (serializeConfig c).length = 32 := by
  obtain ⟨h1, h2, h3, h4, -⟩ := h
  simp [serializeConfig, h1, h2, h3, h4]

theorem deserialize_append (c : ConfigData) (h : cfgWF c) :
    deserializeConfig (c.keyMap1 ++ c.keyMap2 ++ c.ledConfig1 ++ c.ledConfig2) = c := by
  obtain ⟨h1, h2, h3, h4, -⟩ := h
  unfold deserializeConfig
  have e1 : c.keyMap1 ++ c.keyMap2 ++ c.ledConfig1 ++ c.ledConfig2 =
      c.keyMap1 ++ (c.keyMap2 ++ (c.ledConfig1 ++ c.ledConfig2)) := by
    simp [List.append_assoc]
  have e2 : c.keyMap1 ++ c.keyMap2 ++ c.ledConfig1 ++ c.ledConfig2 =
      (c.keyMap1 ++ c.keyMap2) ++ (c.ledConfig1 ++ c.ledConfig2) := by
    simp [List.append_assoc]
  have e3 : c.keyMap1 ++ c.keyMap2 ++ c.ledConfig1 ++ c.ledConfig2 =
      (c.keyMap1 ++ c.keyMap2 ++ c.ledConfig1) ++ c.ledConfig2 := rfl
  congr 1
  · rw [e1, List.take_left' h1]
  · rw [e1, List.drop_left' h1, List.take_left' h2]
  · rw [e2, List.drop_left' (by simp [h1, h2]), List.take_left' h3]
  · rw [e3, List.drop_left' (by simp [h1, h2, h3]), ← h4, List.take_length]

/-- The EEPROM bytes after `handlePersist`: version tag at 0..1, config
image at 2..33. -/
theorem persist_rom (st : SysState) (toks : List Tok) :
    ((handlePersist st toks).2.1).rom =
      putBytes 2 (serializeConfig st.cfg) (putBytes 0 versionBytes st.rom) := rfl

theorem readVersion_persist (img : List Nat) (rom : Nat → Nat) :
    readVersion (putBytes 2 img (putBytes 0 versionBytes rom)) = 2306 := by
  have h0 : putBytes 2 img (putBytes 0 versionBytes rom) 0 = 2 := by
    rw [putBytes_before 2 0 img _ (by omega)]
    rfl
  have h1 : putBytes 2 img (putBytes 0 versionBytes rom) 1 = 9 := by
    rw [putBytes_before 2 1 img _ (by omega)]
    rfl
  rw [readVersion, h0, h1]
  norm_num

/-! ### Claim theorems -/

/-- C1: for every input line, a token matching no verb of the handler
table makes `executeSerialCommands` print one unknown-command error and
discard every later token of the line; concretely, the line
"on 1 badcmd off 3" from the all-off boot state turns led 1 on, logs
exactly one unknown-command error, and leaves led 3 (and all others)
unchanged. -/
theorem c1_unknown_command_stops_line :
    (∀ (fuel : Nat) (w : Tok) (rest : List Tok) (st : SysState),
      findHandler w = none →
        execTokens (fuel + 1) (w :: rest) st =
          { st with out := st.out ++ [Msg.unknownCommandError] }) ∧
    (executeSerialCommands "on 1 badcmd off 3".data bootState).leds =
      [1, 0, 0, 0, 0, 0, 0, 0] ∧
    (executeSerialCommands "on 1 badcmd off 3".data bootState).out =
      [Msg.unknownCommandError] := by
  refine ⟨?_, by decide, by decide⟩
  intro fuel w rest st h
  simp [execTokens, h]

/-- C1 witness: the unknown verb "badcmd" at a concrete state. -/
theorem c1_unknown_command_stops_line_witness :
    execTokens 1 ["badcmd".data] bootState =
      { bootState with out := bootState.out ++ [Msg.unknownCommandError] } :=
  c1_unknown_command_stops_line.1 0 "badcmd".data [] bootState rfl

/-- C2: `persist` immediately followed by `load` restores the in-memory
config byte-for-byte, for any well-formed config (8 byte-valued entries
per map, which every C `char[8]` field satisfies). -/
theorem c2_persist_load_roundtrip (st : SysState) (h : cfgWF st.cfg) :
    ((handleLoad ((handlePersist st []).2.1) []).2.1).cfg = st.cfg := by
  have hrom : ((handlePersist st []).2.1).rom =
      putBytes 2 (serializeConfig st.cfg) (putBytes 0 versionBytes st.rom) := rfl
  have hv : readVersion ((handlePersist st []).2.1).rom = 2306 := by
    rw [hrom]; exact readVersion_persist _ _
  have himg : readBytes 2 32 ((handlePersist st []).2.1).rom =
      serializeConfig st.cfg := by
    rw [hrom, show (32 : Nat) = (serializeConfig st.cfg).length from
      (serializeConfig_length st.cfg h).symm, readBytes_putBytes]
    unfold serializeConfig
    rw [List.map_map]
    exact List.map_congr_left fun x _ => by
      simp only [Function.comp_apply]; omega
  simp only [handleLoad]
  rw [if_pos hv]
  show deserializeConfig (readBytes 2 32 ((handlePersist st []).2.1).rom) = st.cfg
  rw [himg, serializeConfig_map_eq st.cfg h]
  exact deserialize_append st.cfg h

/-- C2 witness: the round trip at the boot state with default config. -/
theorem c2_persist_load_roundtrip_witness :
    cfgWF bootState.cfg ∧
    ((handleLoad ((handlePersist bootState []).2.1) []).2.1).cfg = bootState.cfg :=
  ⟨by decide, c2_persist_load_roundtrip bootState (by decide)⟩

/-- C3: `load` overwrites the in-memory config with the stored payload
exactly when the version tag read at offset 0 equals 2306; on mismatch
the whole state (config and output log included) is untouched, so no
failure is reported. -/
theorem c3_load_version_gate (st : SysState) (toks : List Tok) :
    (readVersion st.rom = 2306 →
      handleLoad st toks =
        (0, { st with cfg := deserializeConfig (readBytes 2 32 st.rom),
                      out := st.out ++ [Msg.configLoaded] }, toks)) ∧
    (readVersion st.rom ≠ 2306 → handleLoad st toks = (0, st, toks)) := by
  constructor <;> intro h <;> simp [handleLoad, h]

/-- C3 witness: an all-zero EEPROM (tag 0) leaves the state unchanged; an
EEPROM carrying the tag is loaded. -/
theorem c3_load_version_gate_witness :
    handleLoad bootState [] = (0, bootState, []) ∧
    handleLoad { bootState with rom := putBytes 0 versionBytes bootState.rom } [] =
      (0, { bootState with
              rom := putBytes 0 versionBytes bootState.rom,
              cfg := deserializeConfig
                (readBytes 2 32 (putBytes 0 versionBytes bootState.rom)),
              out := [Msg.configLoaded] }, []) :=
  ⟨(c3_load_version_gate bootState []).2 (by decide),
   (c3_load_version_gate { bootState with rom := putBytes 0 versionBytes bootState.rom } []).1 (by decide)⟩

/-- C4: after `usemap 2`, `setkeycode 1 65` updates only the alternate
map's entry for key 1; the primary key map and both led-behaviour maps
are untouched, every other alternate entry keeps its value, and after
`usemap 1` the code a press of key 1 emits is the original primary one. -/
theorem c4_setkeycode_alternate_map_only (st : SysState)
    (h2 : st.cfg.keyMap2.length = 8) :
    (executeSerialCommands "usemap 2 setkeycode 1 65".data st).cfg.keyMap2 =
      st.cfg.keyMap2.set 0 65 ∧
    (executeSerialCommands "usemap 2 setkeycode 1 65".data st).cfg.keyMap2.getD 0 0 = 65 ∧
    (∀ i : Nat, i ≠ 0 →
      (executeSerialCommands "usemap 2 setkeycode 1 65".data st).cfg.keyMap2.getD i 0 =
        st.cfg.keyMap2.getD i 0) ∧
    (executeSerialCommands "usemap 2 setkeycode 1 65".data st).cfg.keyMap1 =
      st.cfg.keyMap1 ∧
    (executeSerialCommands "usemap 2 setkeycode 1 65".data st).cfg.ledConfig1 =
      st.cfg.ledConfig1 ∧
    (executeSerialCommands "usemap 2 setkeycode 1 65".data st).cfg.ledConfig2 =
      st.cfg.ledConfig2 ∧
    (executeSerialCommands "usemap 1".data
      (executeSerialCommands "usemap 2 setkeycode 1 65".data st)).useAlt = false ∧
    activeKeyCode (executeSerialCommands "usemap 1".data
      (executeSerialCommands "usemap 2 setkeycode 1 65".data st)) 0 =
      st.cfg.keyMap1.getD 0 0 := by
  have hk2 : (executeSerialCommands "usemap 2 setkeycode 1 65".data st).cfg.keyMap2 =
      st.cfg.keyMap2.set 0 65 := rfl
  refine ⟨hk2, ?_, ?_, rfl, rfl, rfl, rfl, rfl⟩
  · rw [hk2, List.getD_eq_getElem _ _ (by simp [h2]), List.getElem_set_self]
  · intro i hi
    rw [hk2]
    by_cases hlt : i < st.cfg.keyMap2.length
    · rw [List.getD_eq_getElem _ _ (by simpa using hlt),
        List.getD_eq_getElem _ _ hlt, List.getElem_set_of_ne (fun hx => hi hx.symm)]
    · rw [List.getD_eq_default _ _ (by simpa using Nat.le_of_not_lt hlt),
        List.getD_eq_default _ _ (Nat.le_of_not_lt hlt)]

/-- C4 witness: the scenario at the boot state. -/
theorem c4_setkeycode_alternate_map_only_witness :
    bootState.cfg.keyMap2.length = 8 ∧
    (executeSerialCommands "usemap 2 setkeycode 1 65".data bootState).cfg.keyMap2.getD 0 0 = 65 ∧
    activeKeyCode (executeSerialCommands "usemap 1".data
      (executeSerialCommands "usemap 2 setkeycode 1 65".data bootState)) 0 =
      bootState.cfg.keyMap1.getD 0 0 :=
  ⟨rfl, (c4_setkeycode_alternate_map_only bootState rfl).2.1,
   (c4_setkeycode_alternate_map_only bootState rfl).2.2.2.2.2.2.2⟩

/-- C5: a numeric argument whose parsed value — the value the 16-bit
avr-libc `atoi` produces — lies outside the verb's inclusive range makes
`parseNumber` print a range error and the dispatcher abandon the rest of
the line; concretely `setkeycode 1 256 on 1` leaves the config (hence the
active map's entry for key 1) and the leds of any state unchanged and
logs exactly the range error. -/
theorem c5_range_error_aborts_line :
    (∀ (lo hi : Int) (t : Tok) (rest : List Tok),
      (atoi t < lo ∨ hi < atoi t) →
        parseNumber lo hi (t :: rest) = (-1, rest, [Msg.rangeError lo hi])) ∧
    (∀ st : SysState,
      (executeSerialCommands "setkeycode 1 256 on 1".data st).cfg = st.cfg ∧
      (executeSerialCommands "setkeycode 1 256 on 1".data st).leds = st.leds ∧
      (executeSerialCommands "setkeycode 1 256 on 1".data st).out =
        st.out ++ [Msg.rangeError 0 255]) := by
  constructor
  · intro lo hi t rest h
    simp only [parseNumber]
    rw [if_pos h]
  · intro st
    refine ⟨rfl, rfl, ?_⟩
    have : (executeSerialCommands "setkeycode 1 256 on 1".data st).out =
        (st.out ++ []) ++ [Msg.rangeError 0 255] := rfl
    rw [this, List.append_nil]

/-- C5 witness: code 256 is out of the declared range 0..255.  The last
three conjuncts pin the model to the AVR integer semantics: "65537"
parses to 1 through the 16-bit wrap, so `setkeycode 1 65537` is accepted
— the key code becomes 1 and no error is printed. -/
theorem c5_range_error_aborts_line_witness :
    (atoi "256".data < 0 ∨ (255 : Int) < atoi "256".data) ∧
    parseNumber 0 255 ["256".data] = (-1, [], [Msg.rangeError 0 255]) ∧
    (executeSerialCommands "setkeycode 1 256 on 1".data bootState).cfg = bootState.cfg ∧
    atoi "65537".data = 1 ∧
    (executeSerialCommands "setkeycode 1 65537".data bootState).cfg.keyMap1 =
      bootState.cfg.keyMap1.set 0 1 ∧
    (executeSerialCommands "setkeycode 1 65537".data bootState).out = [] :=
  ⟨by decide, c5_range_error_aborts_line.1 0 255 "256".data [] (by decide),
   (c5_range_error_aborts_line.2 bootState).1, by decide, by decide, by decide⟩

/-- C6: the animation table has exactly 9 frames; the ordered `setLed`
calls of the frame loop are: each frame's pair turned on, then the
previous frame's pair turned off (none for the first frame), and after
the last frame its pair turned off; and for every valid led state the
restore loop puts all 8 leds back, so the whole led state is unchanged. -/
theorem c6_animation_frames_and_restore :
    ledAnimation.length = 9 ∧
    frameEvents =
      [(0, 1), (7, 1),
       (1, 1), (6, 1), (0, 0), (7, 0),
       (2, 1), (5, 1), (1, 0), (6, 0),
       (3, 1), (4, 1), (2, 0), (5, 0),
       (7, 1), (0, 1), (3, 0), (4, 0),
       (6, 1), (1, 1), (7, 0), (0, 0),
       (5, 1), (2, 1), (6, 0), (1, 0),
       (4, 1), (3, 1), (5, 0), (2, 0),
       (0, 1), (7, 1), (4, 0), (3, 0),
       (0, 0), (7, 0)] ∧
    (∀ s : List Nat, s.length = 8 → ledInv s → startupLedAnimation s = s) :=
  ⟨rfl, by decide, fun s hs hinv => startupLedAnimation_id s hs hinv⟩

/-- C6 witness: the animation leaves a concrete mixed on/off state
unchanged. -/
theorem c6_animation_frames_and_restore_witness :
    ([1, 0, 1, 0, 1, 0, 1, 1] : List Nat).length = 8 ∧
    ledInv [1, 0, 1, 0, 1, 0, 1, 1] ∧
    startupLedAnimation [1, 0, 1, 0, 1, 0, 1, 1] = [1, 0, 1, 0, 1, 0, 1, 1] :=
  ⟨rfl, by decide,
   c6_animation_frames_and_restore.2.2 [1, 0, 1, 0, 1, 0, 1, 1] rfl (by decide)⟩

/-- C7: toggling the led of any key k in 1..8 twice restores the whole
led state (valid 8-entry 0/1 state) to its original value. -/
theorem c7_toggle_involution (s : List Nat) (k : Int) (hk1 : 1 ≤ k)
    (hk8 : k ≤ 8) (hs : s.length = 8) (hinv : ledInv s) :
    toggleLed (toggleLed s (k - 1)) (k - 1) = s := by
  have hj : (k - 1).toNat < s.length := by omega
  have hv : s.getD (k - 1).toNat 0 ≤ 1 := by
    rw [List.getD_eq_getElem _ _ hj]
    exact hinv _ (List.getElem_mem _)
  rw [toggleLed_valid s _ (by omega) (by omega)]
  by_cases h0 : s.getD (k - 1).toNat 0 = 0
  · rw [if_pos h0, toggleLed_valid _ _ (by omega) (by omega)]
    have hset : (s.set (k - 1).toNat 1).getD (k - 1).toNat 0 = 1 := by
      rw [List.getD_eq_getElem _ _ (by simpa using hj), List.getElem_set_self]
    rw [hset]
    simp only [one_ne_zero, if_false]
    rw [List.set_set]
    calc s.set (k - 1).toNat 0 = s.set (k - 1).toNat (s.getD (k - 1).toNat 0) := by
          rw [h0]
      _ = s := set_getD_self s _ hj
  · rw [if_neg h0, toggleLed_valid _ _ (by omega) (by omega)]
    have hset : (s.set (k - 1).toNat 0).getD (k - 1).toNat 0 = 0 := by
      rw [List.getD_eq_getElem _ _ (by simpa using hj), List.getElem_set_self]
    rw [hset, if_pos rfl, List.set_set]
    calc s.set (k - 1).toNat 1 = s.set (k - 1).toNat (s.getD (k - 1).toNat 0) := by
          rw [show s.getD (k - 1).toNat 0 = 1 by omega]
      _ = s := set_getD_self s _ hj

/-- C7 witness: double toggle of key 3 on a concrete state. -/
theorem c7_toggle_involution_witness :
    (1 : Int) ≤ 3 ∧ (3 : Int) ≤ 8 ∧
    ([0, 1, 0, 1, 0, 1, 0, 1] : List Nat).length = 8 ∧
    ledInv [0, 1, 0, 1, 0, 1, 0, 1] ∧
    toggleLed (toggleLed [0, 1, 0, 1, 0, 1, 0, 1] (3 - 1)) (3 - 1) =
      [0, 1, 0, 1, 0, 1, 0, 1] :=
  ⟨by decide, by decide, rfl, by decide,
   c7_toggle_involution [0, 1, 0, 1, 0, 1, 0, 1] 3 (by decide) (by decide) rfl (by decide)⟩

set_option maxRecDepth 16000 in
/-- C8: the claim is right and the code is wrong.  The capacity guard of
the input assembler tests `strlen(readBuffer)` (source line 473), which
freezes once a NUL byte has been received while the write pointer keeps
advancing.  Feeding a NUL byte followed by 100 further bytes to an empty
buffer stores all 101 characters — far beyond the 79-character cap the
claim asserts, and past the end of the 80-byte `readBuffer` array on the
device; a following CR also fails the `strlen > 0` dispatch gate (line
479), so the oversized line is never executed, the buffer is kept, and
nothing is reported. -/
theorem c8_nul_byte_defeats_length_guard :
    (handleSerialReceive
      (Char.ofNat 0 :: List.replicate 100 (Char.ofNat 97)) [] bootState).1.length = 101 ∧
    (handleSerialReceive
      ((Char.ofNat 0 :: List.replicate 100 (Char.ofNat 97)) ++ [Char.ofNat 13])
      [] bootState).1 =
      Char.ofNat 0 :: List.replicate 100 (Char.ofNat 97) ∧
    (handleSerialReceive
      ((Char.ofNat 0 :: List.replicate 100 (Char.ofNat 97)) ++ [Char.ofNat 13])
      [] bootState).2 = bootState :=
  ⟨by decide, by decide, rfl⟩

/-- C9: `setLed` is a silent no-op for an index outside [0,7] and for an
on/off value outside [0,1], and every operation of the firmware that
touches the led array (setLed, toggleLed, key-press behaviour execution,
the startup animation, and any serial command line) preserves the
invariant that each entry is 0 or 1. -/
theorem c9_led_entries_zero_or_one :
    (∀ (s : List Nat) (nr v : Int),
      (nr < 0 ∨ 8 ≤ nr ∨ v < 0 ∨ 1 < v) → setLed s nr v = s) ∧
    (∀ (s : List Nat) (nr v : Int), ledInv s → ledInv (setLed s nr v)) ∧
    (∀ (s : List Nat) (nr : Int), ledInv s → ledInv (toggleLed s nr)) ∧
    (∀ (nr : Int) (st : SysState), ledInv st.leds →
      ledInv (executeLedConfig nr st).leds) ∧
    (∀ s : List Nat, ledInv s → ledInv (startupLedAnimation s)) ∧
    (∀ (buf : List Char) (st : SysState), ledInv st.leds →
      ledInv (executeSerialCommands buf st).leds) := by
  refine ⟨?_, ledInv_setLed, ledInv_toggleLed, ledInv_executeLedConfig,
    ledInv_startupLedAnimation, ledInv_executeSerialCommands⟩
  intro s nr v h
  unfold setLed
  rw [if_pos h]

/-- C9 witness: the guards and the invariant at concrete inputs. -/
theorem c9_led_entries_zero_or_one_witness :
    setLed (List.replicate 8 0) 9 1 = List.replicate 8 0 ∧
    setLed (List.replicate 8 0) 0 2 = List.replicate 8 0 ∧
    ledInv (setLed (List.replicate 8 0) 0 1) ∧
    ledInv (toggleLed (List.replicate 8 0) 3) ∧
    ledInv (executeLedConfig 2 bootState).leds ∧
    ledInv (startupLedAnimation (List.replicate 8 0)) ∧
    ledInv (executeSerialCommands "on 1 t 2".data bootState).leds :=
  ⟨c9_led_entries_zero_or_one.1 _ 9 1 (by decide),
   c9_led_entries_zero_or_one.1 _ 0 2 (by decide),
   c9_led_entries_zero_or_one.2.1 _ 0 1 (by decide),
   c9_led_entries_zero_or_one.2.2.1 _ 3 (by decide),
   c9_led_entries_zero_or_one.2.2.2.1 2 bootState (by decide),
   c9_led_entries_zero_or_one.2.2.2.2.1 _ (by decide),
   c9_led_entries_zero_or_one.2.2.2.2.2 "on 1 t 2".data bootState (by decide)⟩

/-- C10: a terminator arriving while the input buffer is empty (for
example the LF of a CR-LF pair whose CR already dispatched the line)
executes nothing and prints nothing: the state is unchanged; consequently
a line terminated by CR-LF behaves exactly like the same line terminated
by CR alone. -/
theorem c10_empty_line_no_effect :
    (∀ (st : SysState) (c : Char), c.toNat = 13 ∨ c.toNat = 10 →
      handleSerialReceive [c] [] st = ([], st)) ∧
    (∀ (l : List Char) (st : SysState), noTerm l →
      handleSerialReceive (l ++ [Char.ofNat 13, Char.ofNat 10]) [] st =
        handleSerialReceive (l ++ [Char.ofNat 13]) [] st) := by
  have hempty : ∀ (st : SysState) (c : Char), c.toNat = 13 ∨ c.toNat = 10 →
      handleSerialReceive [c] [] st = ([], st) := by
    intro st c hc
    rw [hsr_term_step c [] st hc]
    rfl
  refine ⟨hempty, ?_⟩
  intro l st hnt
  have hsplit : l ++ [Char.ofNat 13, Char.ofNat 10] =
      (l ++ [Char.ofNat 13]) ++ [Char.ofNat 10] := by simp
  rw [hsplit, hsr_append (l ++ [Char.ofNat 13]) [Char.ofNat 10] [] st,
    hsr_append l [Char.ofNat 13] [] st, hsr_noTerm_fold l [] st hnt]
  dsimp only
  rw [hsr_term_step (Char.ofNat 13) (feedBuf l []) st (Or.inl rfl)]
  by_cases hB : 0 < cstrlen (feedBuf l [])
  · rw [if_pos hB]
    dsimp only
    exact hempty _ (Char.ofNat 10) (Or.inr rfl)
  · rw [if_neg hB]
    dsimp only
    rw [hsr_term_step (Char.ofNat 10) (feedBuf l []) st (Or.inr rfl), if_neg hB]

/-- C10 witness: an LF on an empty buffer, and the CR-LF/CR equivalence
for a concrete line. -/
theorem c10_empty_line_no_effect_witness :
    handleSerialReceive [Char.ofNat 10] [] bootState = ([], bootState) ∧
    handleSerialReceive ("on 1".data ++ [Char.ofNat 13, Char.ofNat 10]) [] bootState =
      handleSerialReceive ("on 1".data ++ [Char.ofNat 13]) [] bootState :=
  ⟨c10_empty_line_no_effect.1 bootState (Char.ofNat 10) (Or.inr rfl),
   c10_empty_line_no_effect.2 "on 1".data bootState (by decide)⟩
